import Mathlib

/-!
Verification of the heare-auth in-memory key store and HTTP layer
(`heare_auth/storage.py`, `heare_auth/main.py`).

The embedding models Python dictionaries as association lists with
in-place-overwrite insertion (Python 3.7+ dict semantics: replacing the
value of an existing key keeps its position, a new key is appended),
bytes as lists of naturals, and the two external collaborators —
the `cryptography` Fernet cipher and `datetime.fromisoformat` — by
their functional contracts (an injective key-derivation with
authenticated encryption, respectively an abstract Option-valued parse
function that theorems quantify over).
-/

namespace HeareAuth

/-! ## Bytes and the encryption layer (storage.py, lines 18 and 45-85) -/

/-- Byte strings, as lists of byte values. -/
abbrev Bytes := List Nat

/-- The fixed marker `b"HEARE_ENCRYPTED_V1:"` (storage.py line 18), as ASCII bytes. -/
def ENCRYPTION_HEADER : Bytes :=
  [72, 69, 65, 82, 69, 95, 69, 78, 67, 82, 89, 80, 84, 69, 68, 95, 86, 49, 58]

/-- Injective code of a character list, used to model the SHA-256 key
derivation of storage.py lines 41-43.  SHA-256 is collision-free for all
practical purposes, so the derived Fernet key is modelled as an injective
function of the storage secret. -/
def charListCode : List Char → Nat
  | [] => 0
  | c :: cs => Nat.pair c.toNat (charListCode cs) + 1

/-- Model of deriving the Fernet key from the storage secret
(`base64.urlsafe_b64encode(hashlib.sha256(storage_secret.encode()).digest())`). -/
def deriveKey (storage_secret : String) : Nat :=
  charListCode storage_secret.data

/-- The `self.fernet` field: `None` when no storage secret is configured,
otherwise the key derived from the configured secret (storage.py lines 37-43). -/
def mkFernet (storage_secret : Option String) : Option Nat :=
  storage_secret.map deriveKey

/-- Model of `Fernet(key).encrypt(data)`: an abstract authenticated token
binding the key and the plaintext.  (Real Fernet also carries an IV and an
HMAC; only the functional decrypt contract matters here.) -/
def fernetEncrypt (key : Nat) (data : Bytes) : Bytes :=
  key :: data

/-- Model of `Fernet(key).decrypt(token)`: recovers the plaintext when the
token was produced under the same key, and fails (`InvalidToken`) otherwise. -/
def fernetDecrypt (key : Nat) (token : Bytes) : Option Bytes :=
  match token with
  | [] => none
  | k :: rest => if k = key then some rest else none

/-- `KeyStore._decrypt_data` (storage.py lines 45-68): marker-prefixed data is
decrypted (hard error if no key is configured or the token is invalid),
anything else passes through unchanged.  Errors carry the exact Python
`ValueError` messages. -/
def decrypt_data (fernet : Option Nat) (raw_data : Bytes) : Except String Bytes :=
  if ENCRYPTION_HEADER.isPrefixOf raw_data then
    match fernet with
    | none => .error "Data is encrypted but no STORAGE_SECRET provided"
    | some key =>
      match fernetDecrypt key (raw_data.drop ENCRYPTION_HEADER.length) with
      | some d => .ok d
      | none => .error "Failed to decrypt data - invalid STORAGE_SECRET"
  else
    .ok raw_data

/-- `KeyStore._encrypt_data` (storage.py lines 70-85): prepend the marker to
the Fernet token when encryption is enabled, otherwise return the data as-is. -/
def encrypt_data (fernet : Option Nat) (data : Bytes) : Bytes :=
  match fernet with
  | some key => ENCRYPTION_HEADER ++ fernetEncrypt key data
  | none => data

/-! ## Key records and the JSON data model -/

/-- The JSON values an `expires_at` field can hold.  Only truthiness and
being-a-string matter to `get_by_secret`. -/
inductive JVal where
  | null
  | str (s : String)
  | num (n : Int)
  | bool (b : Bool)
deriving DecidableEq, Repr

/-- Python truthiness of a `JVal` (`if expires_at:` in storage.py line 158). -/
def JVal.truthy : JVal → Bool
  | .null => false
  | .str s => !s.data.isEmpty
  | .num n => decide (n ≠ 0)
  | .bool b => b

/-- One element of the blob's `keys` list, restricted to the fields the code
reads.  `secretField`/`idField` are `none` when the JSON object lacks the
`"secret"`/`"id"` key (so subscripting raises `KeyError`); `expiresAt` is
`none` when `"expires_at"` is absent (`dict.get` returns `None`); `name` is
taken as present, and `metadata` is uninterpreted. -/
structure RawRecord where
  secretField : Option String
  idField : Option String
  name : String
  expiresAt : Option JVal
  metadata : Option String
deriving DecidableEq, Repr

/-- Python dict insertion on an association list: overwrite in place if the
key exists, append otherwise. -/
def dictInsert : List (String × RawRecord) → String → RawRecord → List (String × RawRecord)
  | [], s, v => [(s, v)]
  | (k, w) :: t, s, v => if k = s then (s, v) :: t else (k, w) :: dictInsert t s v

/-- The two in-memory indices (`self.keys_by_secret`, `self.keys_by_id`,
storage.py lines 33-34). -/
structure StoreState where
  keys_by_secret : List (String × RawRecord)
  keys_by_id : List (String × RawRecord)
deriving DecidableEq, Repr

/-- The exceptions `load_from_s3` can raise: the `ValueError`s of
`_decrypt_data`, a JSON parse failure, a `KeyError` for a missing dict key,
and a re-raised non-NoSuchKey `ClientError`. -/
inductive LoadErr where
  | valueError (msg : String)
  | jsonDecodeError
  | keyError (field : String)
  | clientError (code : String)
deriving DecidableEq, Repr

/-- Outcome of `self.s3.get_object` as dispatched by the `except ClientError`
clause of storage.py lines 111-117: a body, a NoSuchKey error, or any other
client error code. -/
inductive S3GetResult where
  | ok (body : Bytes)
  | noSuchKey
  | err (code : String)
deriving Repr

/-- The dict comprehension `{k[field]: k for k in keys}` (storage.py
lines 107-108): processes records left to right, raising `KeyError` at the
first record lacking the field, later records overwriting earlier ones. -/
def buildIndex (f : RawRecord → Option String) (fieldName : String) :
    List RawRecord → List (String × RawRecord) → Except LoadErr (List (String × RawRecord))
  | [], acc => .ok acc
  | k :: ks, acc =>
    match f k with
    | none => .error (.keyError fieldName)
    | some s => buildIndex f fieldName ks (dictInsert acc s k)

/-- `KeyStore.load_from_s3` (storage.py lines 87-117) over an abstract
`parseDoc` modelling `json.loads` followed by `data["keys"]` and reading the
record fields.  Returns the store state left behind by the call together
with the returned count or the raised exception; the two index assignments
of lines 107-108 happen sequentially, so a failure between them leaves the
secret index already replaced. -/
def load_from_s3 (fernet : Option Nat) (parseDoc : Bytes → Except LoadErr (List RawRecord))
    (st : StoreState) (resp : S3GetResult) : StoreState × Except LoadErr Nat :=
  match resp with
  | .noSuchKey => (⟨[], []⟩, .ok 0)
  | .err c => (st, .error (.clientError c))
  | .ok raw =>
    match decrypt_data fernet raw with
    | .error m => (st, .error (.valueError m))
    | .ok dec =>
      match parseDoc dec with
      | .error e => (st, .error e)
      | .ok ks =>
        match buildIndex RawRecord.secretField "secret" ks [] with
        | .error e => (st, .error e)
        | .ok bySec =>
          match buildIndex RawRecord.idField "id" ks [] with
          | .error e => ({ st with keys_by_secret := bySec }, .error e)
          | .ok byId => (⟨bySec, byId⟩, .ok bySec.length)

/-- The sequence of store states visible at the statement boundaries of
`load_from_s3`: the initial state, then (where reached) the state after the
`keys_by_secret` assignment, then the state after the `keys_by_id`
assignment.  The empty-store initialization of lines 114-115 is likewise
two assignments. -/
def loadTrace (fernet : Option Nat) (parseDoc : Bytes → Except LoadErr (List RawRecord))
    (st : StoreState) (resp : S3GetResult) : List StoreState :=
  match resp with
  | .noSuchKey => [st, ⟨[], st.keys_by_id⟩, ⟨[], []⟩]
  | .err _ => [st]
  | .ok raw =>
    match decrypt_data fernet raw with
    | .error _ => [st]
    | .ok dec =>
      match parseDoc dec with
      | .error _ => [st]
      | .ok ks =>
        match buildIndex RawRecord.secretField "secret" ks [] with
        | .error _ => [st]
        | .ok bySec =>
          match buildIndex RawRecord.idField "id" ks [] with
          | .error _ => [st, ⟨bySec, st.keys_by_id⟩]
          | .ok byId => [st, ⟨bySec, st.keys_by_id⟩, ⟨bySec, byId⟩]

/-- `KeyStore.get_by_secret` (storage.py lines 139-168) over an abstract
`parseIso` modelling `datetime.fromisoformat(s.replace("Z", "+00:00"))`:
`none` is a `ValueError`; `some (aware, t)` is a successful parse, with
`aware` recording whether the resulting datetime carries a timezone and `t`
the denoted instant.  `now` is the aware instant
`datetime.now(timezone.utc)`.  A truthy non-string `expires_at` raises
`AttributeError` at `.replace`, caught like `ValueError`; but when the
parse succeeds with a timezone-naive datetime, the comparison `now > expiry`
raises `TypeError`, which the `except (ValueError, AttributeError)` clause
does NOT catch — it escapes the method, modelled as the `Except` error. -/
def get_by_secret (parseIso : String → Option (Bool × Int)) (now : Int)
    (st : StoreState) (secret : String) : Except String (Option RawRecord) :=
  match List.lookup secret st.keys_by_secret with
  | none => .ok none
  | some key_data =>
    match key_data.expiresAt with
    | none => .ok (some key_data)
    | some v =>
      if v.truthy then
        match v with
        | .str s =>
          match parseIso s with
          | some (aware, expiry) =>
            if aware then
              if expiry < now then .ok none else .ok (some key_data)
            else
              .error "TypeError: cannot compare offset-naive and offset-aware datetimes"
          | none => .ok (some key_data)
        | _ => .ok (some key_data)
      else
        .ok (some key_data)

/-- `KeyStore.get_by_id` (storage.py lines 170-180): a plain index lookup,
no expiry evaluation. -/
def get_by_id (st : StoreState) (key_id : String) : Option RawRecord :=
  List.lookup key_id st.keys_by_id

/-! ## The HTTP layer (main.py) -/

/-- Outcome of `POST /verify` (main.py lines 94-161): the 403
`HTTPException` detail `{"valid": False, "error": "Invalid API key"}`, the
200 `VerifyResponse`, or a 500 from an exception the handler does not
catch (a `TypeError` escaping `get_by_secret`, or a `KeyError` if the
matched record lacks `"id"`). -/
inductive VerifyOutcome where
  | http403 (valid : Bool) (error : String)
  | http200 (key_id : String) (name : String) (metadata : Option String)
  | http500 (msg : String)
deriving DecidableEq, Repr

/-- The `verify` endpoint handler (main.py lines 94-161), with logging and
metrics omitted (they do not affect the response).  An exception raised
inside `store.get_by_secret` propagates out of the handler unhandled. -/
def verify (parseIso : String → Option (Bool × Int)) (now : Int)
    (st : StoreState) (api_key : String) : VerifyOutcome :=
  match get_by_secret parseIso now st api_key with
  | .error m => .http500 m
  | .ok none => .http403 false "Invalid API key"
  | .ok (some key_data) =>
    match key_data.idField with
    | none => .http500 "KeyError: id"
    | some kid => .http200 kid key_data.name key_data.metadata

/-- Python `str.split(",")` on a character list: `""` splits to `[""]`,
and separators delimit (possibly empty) groups. -/
def splitOnComma : List Char → List (List Char)
  | [] => [[]]
  | c :: cs =>
    match splitOnComma cs with
    | [] => [[]]
    | g :: gs => if c = ',' then [] :: g :: gs else (c :: g) :: gs

/-- Python `str.strip()` on a character list: drop leading and trailing
whitespace. -/
def stripWs (l : List Char) : List Char :=
  ((l.dropWhile Char.isWhitespace).reverse.dropWhile Char.isWhitespace).reverse

/-- `request.headers.get("x-forwarded-for", "").split(",")[0].strip()`
(main.py line 183); the `Option` is the header's presence. -/
def firstForwarded (xff : Option String) : String :=
  String.mk (stripWs ((splitOnComma (xff.getD "").data).headD []))

/-- `client_host in ("127.0.0.1", "localhost", None)` (main.py line 185);
`none` models `request.client` being `None`. -/
def isAllowedHost (client_host : Option String) : Bool :=
  decide (client_host = some "127.0.0.1" ∨ client_host = some "localhost" ∨ client_host = none)

/-- `forwarded_for in ("127.0.0.1", "localhost", "")` (main.py lines 185-189). -/
def isAllowedForwarded (forwarded_for : String) : Bool :=
  decide (forwarded_for = "127.0.0.1" ∨ forwarded_for = "localhost" ∨ forwarded_for = "")

/-- The rejection condition of main.py lines 185-189. -/
def refreshRejected (client_host : Option String) (xff : Option String) : Bool :=
  !isAllowedHost client_host && !isAllowedForwarded (firstForwarded xff)

/-- Outcome of `POST /refresh` (main.py lines 164-237): the localhost 403,
a 200 `RefreshResponse`, or the 500 wrapping a load failure. -/
inductive RefreshOutcome where
  | http403
  | http200 (keys_loaded : Nat)
  | http500 (e : LoadErr)
deriving DecidableEq, Repr

/-- The `refresh` endpoint handler (main.py lines 164-237): reject non-local
callers before touching the store, otherwise run `load_from_s3` and map its
outcome; the store state the load left behind persists either way. -/
def refresh (fernet : Option Nat) (parseDoc : Bytes → Except LoadErr (List RawRecord))
    (st : StoreState) (client_host : Option String) (xff : Option String)
    (resp : S3GetResult) : RefreshOutcome × StoreState :=
  if refreshRejected client_host xff then
    (.http403, st)
  else
    match load_from_s3 fernet parseDoc st resp with
    | (st2, .ok n) => (.http200 n, st2)
    | (st2, .error e) => (.http500 e, st2)

/-- Follows the spec's words, for comparison with the code: a caller
address string "is a loopback address" when it is in 127.0.0.0/8, the IPv6
loopback, or the name localhost. -/
def specLoopback (addr : String) : Bool :=
  decide (addr = "localhost" ∨ addr = "::1") || "127.".data.isPrefixOf addr.data

/-! ## Concrete sample data for evaluating the model -/

/-- A parse function returning no records, for runs where the body is never
parsed. -/
def pdEmpty : Bytes → Except LoadErr (List RawRecord) := fun _ => .ok []

/-- A record already present in the store before a reload. -/
def recOld : RawRecord := ⟨some "sec_old", some "key_old", "Old", none, none⟩

/-- A store already holding `recOld` in both indices. -/
def stOld : StoreState := ⟨[("sec_old", recOld)], [("key_old", recOld)]⟩

/-- A well-formed record arriving from a reload. -/
def recB : RawRecord := ⟨some "sec_b", some "key_b", "B", none, none⟩

/-- A parse result delivering just `recB`. -/
def pdB : Bytes → Except LoadErr (List RawRecord) := fun _ => .ok [recB]

/-- A record whose JSON object has a `"secret"` key but no `"id"` key. -/
def recNoId : RawRecord := ⟨some "sec_new", none, "N", none, none⟩

/-- A parse result delivering just `recNoId`. -/
def pdNoId : Bytes → Except LoadErr (List RawRecord) := fun _ => .ok [recNoId]

/-- Two records with distinct secrets but the same id. -/
def recC : RawRecord := ⟨some "sec_c", some "key_dup", "C", none, none⟩

/-- Second record sharing the id of `recC`. -/
def recD : RawRecord := ⟨some "sec_d", some "key_dup", "D", none, none⟩

/-- A parse result delivering `recC` then `recD`. -/
def pdCD : Bytes → Except LoadErr (List RawRecord) := fun _ => .ok [recC, recD]

/-- Two records with the same secret but distinct ids. -/
def recE : RawRecord := ⟨some "sec_dup", some "key_e", "E", none, none⟩

/-- Second record sharing the secret of `recE`. -/
def recF : RawRecord := ⟨some "sec_dup", some "key_f", "F", none, none⟩

/-- A parse result delivering `recE` then `recF`. -/
def pdEF : Bytes → Except LoadErr (List RawRecord) := fun _ => .ok [recE, recF]

/-- A record whose expiry value is an unparsable string. -/
def recU : RawRecord := ⟨some "sec_u", some "key_u", "U", some (.str "not-a-date"), none⟩

/-- A store holding `recU` in both indices. -/
def stU : StoreState := ⟨[("sec_u", recU)], [("key_u", recU)]⟩

/-- A record with expiry string "EXP". -/
def recX : RawRecord := ⟨some "sec_x", some "key_x", "X", some (.str "EXP"), none⟩

/-- A store holding `recX` in both indices. -/
def stX : StoreState := ⟨[("sec_x", recX)], [("key_x", recX)]⟩

/-- A timestamp parse model mapping "EXP" to the timezone-aware instant 0
and rejecting all other strings. -/
def piX : String → Option (Bool × Int) :=
  fun s => if s = "EXP" then some (true, 0) else none

/-- A timestamp parse model rejecting every string. -/
def piNone : String → Option (Bool × Int) := fun _ => none

/-- A timestamp parse model mapping "2020-01-01T00:00:00" to the
timezone-naive instant 0 (a valid ISO string with no offset, which
`fromisoformat` parses to a naive datetime) and rejecting all other
strings. -/
def piNaive : String → Option (Bool × Int) :=
  fun s => if s = "2020-01-01T00:00:00" then some (false, 0) else none

/-- A record whose expiry is a parsable timezone-naive timestamp. -/
def recN : RawRecord :=
  ⟨some "sec_n", some "key_n", "N", some (.str "2020-01-01T00:00:00"), none⟩

/-- A parse result delivering just `recN`. -/
def pdN : Bytes → Except LoadErr (List RawRecord) := fun _ => .ok [recN]

/-- The store obtained by loading just `recN`. -/
def stN : StoreState := ⟨[("sec_n", recN)], [("key_n", recN)]⟩

/-- A plain record with no expiry. -/
def recW : RawRecord := ⟨some "sec_w", some "key_w", "W", none, none⟩

/-- A parse result delivering just `recW`. -/
def pdW : Bytes → Except LoadErr (List RawRecord) := fun _ => .ok [recW]

/-! ## Dictionary and index-building lemmas -/

theorem lookup_dictInsert_self (m : List (String × RawRecord)) (s : String) (v : RawRecord) :
    List.lookup s (dictInsert m s v) = some v := by
  induction m with
  | nil => simp [dictInsert, List.lookup]
  | cons p t ih =>
    obtain ⟨k, w⟩ := p
    by_cases h : k = s
    · subst h
      simp [dictInsert, List.lookup]
    · have hbeq : (s == k) = false := beq_eq_false_iff_ne.mpr (Ne.symm h)
      simp [dictInsert, h, List.lookup, hbeq, ih]

theorem lookup_dictInsert_ne (m : List (String × RawRecord)) (s s' : String) (v : RawRecord)
    (h : s' ≠ s) : List.lookup s' (dictInsert m s v) = List.lookup s' m := by
  induction m with
  | nil => simp [dictInsert, List.lookup, beq_eq_false_iff_ne.mpr h]
  | cons p t ih =>
    obtain ⟨k, w⟩ := p
    by_cases hk : k = s
    · subst hk
      simp [dictInsert, List.lookup, beq_eq_false_iff_ne.mpr h]
    · simp [dictInsert, hk, List.lookup, ih]

theorem keys_dictInsert (m : List (String × RawRecord)) (s : String) (v : RawRecord) :
    (dictInsert m s v).map Prod.fst =
      if s ∈ m.map Prod.fst then m.map Prod.fst else m.map Prod.fst ++ [s] := by
  induction m with
  | nil => simp [dictInsert]
  | cons p t ih =>
    obtain ⟨k, w⟩ := p
    by_cases hk : k = s
    · subst hk
      simp [dictInsert]
    · have : s ∈ (k, w).fst :: t.map Prod.fst ↔ s ∈ t.map Prod.fst := by
        simp [Ne.symm hk]
      by_cases hmem : s ∈ t.map Prod.fst
      · simp [dictInsert, hk, ih, hmem]
      · simp [dictInsert, hk, ih, hmem, Ne.symm hk]

theorem keysFinset_dictInsert (m : List (String × RawRecord)) (s : String) (v : RawRecord) :
    ((dictInsert m s v).map Prod.fst).toFinset = insert s ((m.map Prod.fst).toFinset) := by
  rw [keys_dictInsert]
  by_cases hmem : s ∈ m.map Prod.fst
  · rw [if_pos hmem, Finset.insert_eq_self.mpr (List.mem_toFinset.mpr hmem)]
  · rw [if_neg hmem, List.toFinset_append]
    simp [Finset.union_comm, Finset.insert_eq]

theorem nodupKeys_dictInsert (m : List (String × RawRecord)) (s : String) (v : RawRecord)
    (h : (m.map Prod.fst).Nodup) : ((dictInsert m s v).map Prod.fst).Nodup := by
  rw [keys_dictInsert]
  by_cases hmem : s ∈ m.map Prod.fst
  · rwa [if_pos hmem]
  · rw [if_neg hmem]
    simp [List.nodup_append, h, hmem]

theorem buildIndex_ok (f : RawRecord → Option String) (fieldName : String) :
    ∀ (ks : List RawRecord) (acc : List (String × RawRecord)),
      (∀ r ∈ ks, (f r).isSome) → ∃ m, buildIndex f fieldName ks acc = .ok m := by
  intro ks
  induction ks with
  | nil => intro acc _; exact ⟨acc, rfl⟩
  | cons k t ih =>
    intro acc hall
    obtain ⟨sk, hsk⟩ := Option.isSome_iff_exists.mp (hall k (List.mem_cons_self k t))
    obtain ⟨m, hm⟩ := ih (dictInsert acc sk k) (fun r hr => hall r (List.mem_cons_of_mem k hr))
    exact ⟨m, by simp [buildIndex, hsk, hm]⟩

theorem buildIndex_lookup (f : RawRecord → Option String) (fieldName : String) :
    ∀ (ks : List RawRecord) (acc m : List (String × RawRecord)),
      buildIndex f fieldName ks acc = .ok m → ∀ s : String,
        List.lookup s m =
          match (ks.filter (fun r => decide (f r = some s))).getLast? with
          | some r => some r
          | none => List.lookup s acc := by
  intro ks
  induction ks with
  | nil =>
    intro acc m hok s
    simp [buildIndex] at hok
    subst hok
    simp
  | cons k t ih =>
    intro acc m hok s
    rw [buildIndex] at hok
    cases hfk : f k with
    | none => rw [hfk] at hok; exact absurd hok (by simp)
    | some sk =>
      rw [hfk] at hok
      have hres := ih (dictInsert acc sk k) m hok s
      by_cases hs : sk = s
      · subst hs
        rw [List.filter_cons, if_pos (by simp [hfk])]
        cases hfl : t.filter (fun r => decide (f r = some sk)) with
        | nil =>
          rw [hfl] at hres
          simpa [lookup_dictInsert_self] using hres
        | cons r rs =>
          rw [hfl] at hres
          rw [List.getLast?_cons_cons]
          exact hres
      · rw [List.filter_cons, if_neg (by simp [hfk, hs])]
        rw [lookup_dictInsert_ne acc sk s k (Ne.symm hs)] at hres
        exact hres

theorem filter_eq_single_of_nodup (f : RawRecord → Option String) :
    ∀ (ks : List RawRecord) (R : RawRecord) (s : String),
      (ks.map f).Nodup → R ∈ ks → f R = some s →
      ks.filter (fun r => decide (f r = some s)) = [R] := by
  intro ks
  induction ks with
  | nil => intro R s _ hR _; exact absurd hR (List.not_mem_nil R)
  | cons k t ih =>
    intro R s hnd hR hfR
    rw [List.map_cons, List.nodup_cons] at hnd
    rcases List.mem_cons.mp hR with hRk | hRt
    · subst hRk
      rw [List.filter_cons, if_pos (by simp [hfR])]
      have : t.filter (fun r => decide (f r = some s)) = [] := by
        rw [List.filter_eq_nil_iff]
        intro r hr
        simp only [decide_eq_true_eq]
        intro heq
        have hmem : f r ∈ List.map f t := List.mem_map_of_mem f hr
        rw [heq, ← hfR] at hmem
        exact hnd.1 hmem
      rw [this]
    · have hfk : f k ≠ some s := by
        intro heq
        have hmem : f R ∈ List.map f t := List.mem_map_of_mem f hRt
        rw [hfR, ← heq] at hmem
        exact hnd.1 hmem
      rw [List.filter_cons, if_neg (by simp [hfk])]
      exact ih R s hnd.2 hRt hfR

theorem nodupKeys_buildIndex (f : RawRecord → Option String) (fieldName : String) :
    ∀ (ks : List RawRecord) (acc m : List (String × RawRecord)),
      buildIndex f fieldName ks acc = .ok m → (acc.map Prod.fst).Nodup →
      (m.map Prod.fst).Nodup := by
  intro ks
  induction ks with
  | nil =>
    intro acc m hok hnd
    simp [buildIndex] at hok
    subst hok
    exact hnd
  | cons k t ih =>
    intro acc m hok hnd
    rw [buildIndex] at hok
    cases hfk : f k with
    | none => rw [hfk] at hok; exact absurd hok (by simp)
    | some sk =>
      rw [hfk] at hok
      exact ih (dictInsert acc sk k) m hok (nodupKeys_dictInsert acc sk k hnd)

theorem keysFinset_buildIndex (f : RawRecord → Option String) (fieldName : String) :
    ∀ (ks : List RawRecord) (acc m : List (String × RawRecord)),
      buildIndex f fieldName ks acc = .ok m →
      ((m.map Prod.fst).toFinset : Finset String) =
        (acc.map Prod.fst).toFinset ∪ (ks.filterMap f).toFinset := by
  intro ks
  induction ks with
  | nil =>
    intro acc m hok
    simp [buildIndex] at hok
    subst hok
    simp
  | cons k t ih =>
    intro acc m hok
    rw [buildIndex] at hok
    cases hfk : f k with
    | none => rw [hfk] at hok; exact absurd hok (by simp)
    | some sk =>
      rw [hfk] at hok
      have := ih (dictInsert acc sk k) m hok
      rw [keysFinset_dictInsert] at this
      rw [this, List.filterMap_cons_some hfk, List.toFinset_cons,
        Finset.insert_union, Finset.union_insert]

theorem length_eq_card_keys (m : List (String × RawRecord))
    (h : (m.map Prod.fst).Nodup) : m.length = ((m.map Prod.fst).toFinset).card := by
  rw [List.card_toFinset, List.dedup_eq_self.mpr h, List.length_map]

theorem buildIndex_length (f : RawRecord → Option String) (fieldName : String)
    (ks : List RawRecord) (m : List (String × RawRecord))
    (hok : buildIndex f fieldName ks [] = .ok m) :
    m.length = ((ks.filterMap f).toFinset).card := by
  have hnd := nodupKeys_buildIndex f fieldName ks [] m hok (by simp)
  have hkeys := keysFinset_buildIndex f fieldName ks [] m hok
  rw [length_eq_card_keys m hnd, hkeys]
  simp

theorem filterMap_length_of_all_some (f : RawRecord → Option String) :
    ∀ ks : List RawRecord, (∀ r ∈ ks, (f r).isSome) → (ks.filterMap f).length = ks.length := by
  intro ks
  induction ks with
  | nil => intro _; rfl
  | cons k t ih =>
    intro hall
    obtain ⟨sk, hsk⟩ := Option.isSome_iff_exists.mp (hall k (List.mem_cons_self k t))
    rw [List.filterMap_cons_some hsk, List.length_cons, List.length_cons,
      ih (fun r hr => hall r (List.mem_cons_of_mem k hr))]

theorem toFinset_card_lt_of_dup (l : List String) (hnd : ¬l.Nodup) :
    l.toFinset.card < l.length := by
  rw [List.card_toFinset]
  rcases Nat.lt_or_ge l.dedup.length l.length with h | h
  · exact h
  · exfalso
    have hle := (List.dedup_sublist l).length_le
    have heq : l.dedup.length = l.length := Nat.le_antisymm hle h
    have := (List.dedup_sublist l).eq_of_length heq
    exact hnd (this ▸ List.nodup_dedup l)

/-! ## Encryption-layer lemmas -/

theorem isPrefixOf_append_self : ∀ (l m : Bytes), l.isPrefixOf (l ++ m) = true := by
  intro l m
  induction l with
  | nil => simp [List.isPrefixOf]
  | cons a t ih => simp [List.isPrefixOf, ih]

theorem charListCode_inj : ∀ {l1 l2 : List Char}, charListCode l1 = charListCode l2 → l1 = l2 := by
  intro l1
  induction l1 with
  | nil =>
    intro l2 h
    cases l2 with
    | nil => rfl
    | cons d ds => simp [charListCode] at h
  | cons c cs ih =>
    intro l2 h
    cases l2 with
    | nil => simp [charListCode] at h
    | cons d ds =>
      simp only [charListCode] at h
      obtain ⟨h1, h2⟩ := Nat.pair_eq_pair.mp (Nat.add_right_cancel h)
      have hc : c = d := by
        have := congrArg Char.ofNat h1
        rwa [Char.ofNat_toNat, Char.ofNat_toNat] at this
      rw [hc, ih h2]

theorem deriveKey_inj {a b : String} (h : deriveKey a = deriveKey b) : a = b :=
  congrArg String.mk (charListCode_inj h)

/-- String data of a nonempty string is a nonempty character list. -/
theorem data_isEmpty_false_of_ne {s : String} (h : s ≠ "") : s.data.isEmpty = false := by
  cases hdata : s.data with
  | nil => exact absurd (congrArg String.mk hdata) h
  | cons c cs => rfl

/-! ## The claims -/

/-- C4: with a storage secret configured, `decrypt(encrypt(data)) == data`
and the output of `encrypt` always begins with the encryption marker; any
byte string that does not begin with the marker passes through `decrypt`
unchanged, with or without a configured secret. -/
theorem C4_encrypt_decrypt_roundtrip :
    ∀ (storage_secret : String) (data : Bytes) (fernet : Option Nat),
      decrypt_data (mkFernet (some storage_secret))
          (encrypt_data (mkFernet (some storage_secret)) data) = .ok data
      ∧ ENCRYPTION_HEADER.isPrefixOf
          (encrypt_data (mkFernet (some storage_secret)) data) = true
      ∧ (ENCRYPTION_HEADER.isPrefixOf data = false → decrypt_data fernet data = .ok data) := by
  intro s data fern
  refine ⟨?_, ?_, ?_⟩
  · simp [decrypt_data, encrypt_data, mkFernet, isPrefixOf_append_self,
      List.drop_left, fernetEncrypt, fernetDecrypt]
  · simp [encrypt_data, mkFernet, fernetEncrypt, isPrefixOf_append_self]
  · intro h
    simp [decrypt_data, h]

/-- C4 witness: the round trip and the marker-free passthrough evaluated at
concrete byte strings. -/
theorem C4_witness :
    decrypt_data (mkFernet (some "test-secret"))
        (encrypt_data (mkFernet (some "test-secret")) [104, 105]) = .ok [104, 105]
    ∧ decrypt_data none [123, 34] = .ok [123, 34] :=
  ⟨(C4_encrypt_decrypt_roundtrip "test-secret" [104, 105] none).1,
   (C4_encrypt_decrypt_roundtrip "test-secret" [123, 34] none).2.2 (by decide)⟩

/-- C5: decrypting marker-prefixed data with no configured secret is a hard
error with the no-key message; decrypting data encrypted under one secret
with a different configured secret is a hard error with the distinct
wrong-key message; neither returns bytes. -/
theorem C5_decrypt_error_cases :
    ∀ (raw data : Bytes) (s1 s2 : String),
      (ENCRYPTION_HEADER.isPrefixOf raw = true →
        decrypt_data none raw = .error "Data is encrypted but no STORAGE_SECRET provided")
      ∧ (s1 ≠ s2 →
        decrypt_data (mkFernet (some s2)) (encrypt_data (mkFernet (some s1)) data)
          = .error "Failed to decrypt data - invalid STORAGE_SECRET")
      ∧ "Data is encrypted but no STORAGE_SECRET provided"
          ≠ "Failed to decrypt data - invalid STORAGE_SECRET" := by
  intro raw data s1 s2
  refine ⟨?_, ?_, by decide⟩
  · intro h
    simp [decrypt_data, h]
  · intro hne
    have hkey : deriveKey s1 ≠ deriveKey s2 := fun h => hne (deriveKey_inj h)
    simp [decrypt_data, encrypt_data, mkFernet, isPrefixOf_append_self,
      List.drop_left, fernetEncrypt, fernetDecrypt, hkey]

/-- C5 witness: both error cases evaluated at concrete inputs. -/
theorem C5_witness :
    decrypt_data none ENCRYPTION_HEADER
        = .error "Data is encrypted but no STORAGE_SECRET provided"
    ∧ decrypt_data (mkFernet (some "key-b")) (encrypt_data (mkFernet (some "key-a")) [1, 2])
        = .error "Failed to decrypt data - invalid STORAGE_SECRET" :=
  ⟨(C5_decrypt_error_cases ENCRYPTION_HEADER [1, 2] "key-a" "key-b").1 (by decide),
   (C5_decrypt_error_cases ENCRYPTION_HEADER [1, 2] "key-a" "key-b").2.1 (by decide)⟩

/-- C6: when the durable blob does not exist, load raises no error, sets
both in-memory indices to empty and returns zero. -/
theorem C6_missing_blob_empty_store :
    ∀ (fernet : Option Nat) (parseDoc : Bytes → Except LoadErr (List RawRecord))
      (st : StoreState),
      load_from_s3 fernet parseDoc st .noSuchKey = (⟨[], []⟩, .ok 0) := by
  intro _ _ _
  rfl

/-- C7: a record in the secret index whose expires_at value is set but not a
parsable timestamp (not a string, or an unparsable string) is returned by
the secret lookup as if it had no expiry, with no exception escaping. -/
theorem C7_unparsable_expiry_fails_open :
    ∀ (parseIso : String → Option (Bool × Int)) (now : Int) (st : StoreState)
      (secret : String) (k : RawRecord) (v : JVal),
      List.lookup secret st.keys_by_secret = some k →
      k.expiresAt = some v →
      (∀ s : String, v = JVal.str s → parseIso s = none) →
      get_by_secret parseIso now st secret = .ok (some k) := by
  intro pi now st sec k v hl he hp
  simp only [get_by_secret, hl, he]
  cases v with
  | null => simp [JVal.truthy]
  | str s => simp [hp s rfl]
  | num n => simp
  | bool b => simp

/-- C7 witness: a record whose expiry string parses to nothing is still
returned by the secret lookup, with no exception. -/
theorem C7_witness : get_by_secret piNone 0 stU "sec_u" = .ok (some recU) :=
  C7_unparsable_expiry_fails_open piNone 0 stU "sec_u" recU (.str "not-a-date")
    (by decide) rfl (fun _ _ => rfl)

/-- C9 counterexample: on the store loaded with a record whose expiry is
the parsable timezone-naive string 2020-01-01T00:00:00 denoting an instant
strictly in the past, a verify request with a wrong secret gets the 403
body while a verify request with that record's secret hits the uncaught
TypeError from the naive-aware datetime comparison and gets a 500 — the
two responses are distinguishable, contrary to the claim. -/
theorem C9_counterexample :
    piNaive "2020-01-01T00:00:00" = some (false, 0)
    ∧ (0 : Int) < 5
    ∧ load_from_s3 none pdN ⟨[], []⟩ (.ok []) = (stN, .ok 1)
    ∧ verify piNaive 5 stN "sec_absent" = .http403 false "Invalid API key"
    ∧ verify piNaive 5 stN "sec_n"
        = .http500 "TypeError: cannot compare offset-naive and offset-aware datetimes"
    ∧ verify piNaive 5 stN "sec_absent" ≠ verify piNaive 5 stN "sec_n" := by
  refine ⟨rfl, by decide, rfl, rfl, rfl, by decide⟩

/-- C9 amended: when the expired record's timestamp parses to a
timezone-aware instant strictly before now, the wrong-secret and
expired-secret responses are identical 403s with the same body; but when
its timestamp parses to a timezone-naive datetime, the comparison raises
an uncaught TypeError and the expired-secret request gets a 500,
distinguishable from the wrong-secret 403. -/
theorem C9_amended_response_distinguishability :
    ∀ (parseIso : String → Option (Bool × Int)) (now t : Int) (st : StoreState)
      (s1 s2 es : String) (k : RawRecord),
      List.lookup s1 st.keys_by_secret = none →
      List.lookup s2 st.keys_by_secret = some k →
      k.expiresAt = some (.str es) →
      es ≠ "" →
      (parseIso es = some (true, t) → t < now →
        verify parseIso now st s1 = verify parseIso now st s2
        ∧ verify parseIso now st s1 = .http403 false "Invalid API key")
      ∧ (parseIso es = some (false, t) →
        verify parseIso now st s1 = .http403 false "Invalid API key"
        ∧ verify parseIso now st s2
            = .http500 "TypeError: cannot compare offset-naive and offset-aware datetimes"
        ∧ verify parseIso now st s1 ≠ verify parseIso now st s2) := by
  intro pi now t st s1 s2 es k h1 h2 he hne
  have hd := data_isEmpty_false_of_ne hne
  have g1 : get_by_secret pi now st s1 = .ok none := by
    simp [get_by_secret, h1]
  have v1 : verify pi now st s1 = .http403 false "Invalid API key" := by
    simp [verify, g1]
  constructor
  · intro hp hlt
    have g2 : get_by_secret pi now st s2 = .ok none := by
      simp [get_by_secret, h2, he, JVal.truthy, hd, hp, hlt]
    exact ⟨by simp [verify, g1, g2], v1⟩
  · intro hp
    have g2 : get_by_secret pi now st s2
        = .error "TypeError: cannot compare offset-naive and offset-aware datetimes" := by
      simp [get_by_secret, h2, he, JVal.truthy, hd, hp]
    have v2 : verify pi now st s2
        = .http500 "TypeError: cannot compare offset-naive and offset-aware datetimes" := by
      simp [verify, g2]
    exact ⟨v1, v2, by rw [v1, v2]; exact fun h => by cases h⟩

/-- C9 witness: both the identical-403 aware case and the distinguishable
naive case evaluated on concrete stores. -/
theorem C9_witness :
    (verify piX 5 stX "sec_absent" = verify piX 5 stX "sec_x"
      ∧ verify piX 5 stX "sec_absent" = .http403 false "Invalid API key")
    ∧ (verify piNaive 5 stN "sec_absent" = .http403 false "Invalid API key"
      ∧ verify piNaive 5 stN "sec_n"
          = .http500 "TypeError: cannot compare offset-naive and offset-aware datetimes"
      ∧ verify piNaive 5 stN "sec_absent" ≠ verify piNaive 5 stN "sec_n") :=
  ⟨(C9_amended_response_distinguishability piX 5 0 stX "sec_absent" "sec_x" "EXP" recX
      (by decide) (by decide) rfl (by decide)).1 rfl (by decide),
   (C9_amended_response_distinguishability piNaive 5 0 stN "sec_absent" "sec_n"
      "2020-01-01T00:00:00" recN (by decide) (by decide) rfl (by decide)).2 rfl⟩

/-- C1 counterexample: a record loaded with an expires_at that is the
parsable timezone-naive string 2020-01-01T00:00:00, denoting an instant
strictly before the current time, makes get_by_secret raise the uncaught
TypeError from the naive-aware datetime comparison instead of returning
not-found as the claim asserts (get_by_id still returns the record). -/
theorem C1_counterexample :
    load_from_s3 none pdN ⟨[], []⟩ (.ok []) = (stN, .ok 1)
    ∧ piNaive "2020-01-01T00:00:00" = some (false, 0)
    ∧ (0 : Int) < 5
    ∧ get_by_secret piNaive 5 stN "sec_n"
        = .error "TypeError: cannot compare offset-naive and offset-aware datetimes"
    ∧ get_by_id stN "key_n" = some recN := by
  refine ⟨rfl, rfl, by decide, rfl, by decide⟩

/-- C1 amended: after a successful load of a record list with unique
secrets and unique ids, looking any record R up by id returns R
unconditionally; looking it up by secret returns R when its expiry is
unset or null, and, for an expiry string that parses to a timezone-aware
instant, returns R when that instant is in the future and not-found when
it is strictly before the current time (R remaining in both indices); but
when the expiry string parses to a timezone-naive datetime the lookup
raises an uncaught TypeError instead of returning. -/
theorem C1_amended_lookup_after_load :
    ∀ (parseIso : String → Option (Bool × Int)) (now : Int) (fernet : Option Nat)
      (parseDoc : Bytes → Except LoadErr (List RawRecord)) (st0 : StoreState)
      (raw dec : Bytes) (ks : List RawRecord) (R : RawRecord) (sR iR : String),
      decrypt_data fernet raw = .ok dec →
      parseDoc dec = .ok ks →
      (∀ r ∈ ks, (r.secretField).isSome) →
      (∀ r ∈ ks, (r.idField).isSome) →
      (ks.map RawRecord.secretField).Nodup →
      (ks.map RawRecord.idField).Nodup →
      R ∈ ks → R.secretField = some sR → R.idField = some iR →
      ∃ st n, load_from_s3 fernet parseDoc st0 (.ok raw) = (st, .ok n)
        ∧ get_by_id st iR = some R
        ∧ (R.expiresAt = none ∨ R.expiresAt = some JVal.null →
            get_by_secret parseIso now st sR = .ok (some R))
        ∧ (∀ s t, R.expiresAt = some (.str s) → parseIso s = some (true, t) → now < t →
            get_by_secret parseIso now st sR = .ok (some R))
        ∧ (∀ s t, R.expiresAt = some (.str s) → s ≠ "" → parseIso s = some (true, t) →
            t < now →
            get_by_secret parseIso now st sR = .ok none
            ∧ List.lookup sR st.keys_by_secret = some R
            ∧ get_by_id st iR = some R)
        ∧ (∀ s t, R.expiresAt = some (.str s) → s ≠ "" → parseIso s = some (false, t) →
            get_by_secret parseIso now st sR
              = .error "TypeError: cannot compare offset-naive and offset-aware datetimes") := by
  intro pi now fern pd st0 raw dec ks R sR iR hdec hpd hsall hiall hnds hndi hR hsR hiR
  obtain ⟨bySec, hSec⟩ := buildIndex_ok RawRecord.secretField "secret" ks [] hsall
  obtain ⟨byId, hId⟩ := buildIndex_ok RawRecord.idField "id" ks [] hiall
  have lsec : List.lookup sR bySec = some R := by
    have h := buildIndex_lookup RawRecord.secretField "secret" ks [] bySec hSec sR
    rw [filter_eq_single_of_nodup RawRecord.secretField ks R sR hnds hR hsR] at h
    simpa using h
  have lid : List.lookup iR byId = some R := by
    have h := buildIndex_lookup RawRecord.idField "id" ks [] byId hId iR
    rw [filter_eq_single_of_nodup RawRecord.idField ks R iR hndi hR hiR] at h
    simpa using h
  refine ⟨⟨bySec, byId⟩, bySec.length, by simp [load_from_s3, hdec, hpd, hSec, hId],
    ?_, ?_, ?_, ?_, ?_⟩
  · exact lid
  · rintro (h | h) <;> simp [get_by_secret, lsec, h, JVal.truthy]
  · intro s t hes hp hlt
    have hnlt : ¬(t < now) := Int.not_lt.mpr (Int.le_of_lt hlt)
    simp [get_by_secret, lsec, hes, hp, hnlt]
  · intro s t hes hsne hp hlt
    have hd := data_isEmpty_false_of_ne hsne
    exact ⟨by simp [get_by_secret, lsec, hes, JVal.truthy, hd, hp, hlt], lsec, lid⟩
  · intro s t hes hsne hp
    have hd := data_isEmpty_false_of_ne hsne
    simp [get_by_secret, lsec, hes, JVal.truthy, hd, hp]

/-- C1 witness: a concrete one-record load, with the amended lookup
conclusions instantiated. -/
theorem C1_witness :
    ∃ st n, load_from_s3 none pdW ⟨[], []⟩ (.ok []) = (st, .ok n)
      ∧ get_by_id st "key_w" = some recW
      ∧ (recW.expiresAt = none ∨ recW.expiresAt = some JVal.null →
          get_by_secret piNone 0 st "sec_w" = .ok (some recW))
      ∧ (∀ s t, recW.expiresAt = some (.str s) → piNone s = some (true, t) → 0 < t →
          get_by_secret piNone 0 st "sec_w" = .ok (some recW))
      ∧ (∀ s t, recW.expiresAt = some (.str s) → s ≠ "" → piNone s = some (true, t) →
          t < 0 →
          get_by_secret piNone 0 st "sec_w" = .ok none
          ∧ List.lookup "sec_w" st.keys_by_secret = some recW
          ∧ get_by_id st "key_w" = some recW)
      ∧ (∀ s t, recW.expiresAt = some (.str s) → s ≠ "" → piNone s = some (false, t) →
          get_by_secret piNone 0 st "sec_w"
            = .error "TypeError: cannot compare offset-naive and offset-aware datetimes") :=
  C1_amended_lookup_after_load piNone 0 none pdW ⟨[], []⟩ [] [] [recW] recW "sec_w" "key_w"
    rfl rfl (by decide) (by decide) (by decide) (by decide) (by decide) (by decide) (by decide)

/-- C2 counterexample: a refresh request whose direct client address
10.1.2.3 is not a loopback address and which carries no x-forwarded-for
header is not rejected — the reload runs and the store is replaced —
contradicting the claim that every such request gets a 403 with no reload. -/
theorem C2_counterexample :
    specLoopback "10.1.2.3" = false
    ∧ firstForwarded none = ""
    ∧ specLoopback "" = false
    ∧ refresh none pdEmpty stOld (some "10.1.2.3") none .noSuchKey
        = (.http200 0, ⟨[], []⟩) := by
  refine ⟨by decide, by decide, by decide, by decide⟩

/-- C2 amended: a refresh request is rejected with a 403 and no reload
exactly when the direct client address is present and differs from the
literals 127.0.0.1 and localhost AND the first x-forwarded-for entry is
nonempty and differs from those literals; in every other case (in
particular a non-loopback direct address with an absent or empty
x-forwarded-for header) the reload is attempted and its outcome returned. -/
theorem C2_amended_refresh_gate :
    ∀ (fernet : Option Nat) (parseDoc : Bytes → Except LoadErr (List RawRecord))
      (st : StoreState) (ch xff : Option String) (resp : S3GetResult),
      (refreshRejected ch xff = true →
        refresh fernet parseDoc st ch xff resp = (.http403, st))
      ∧ (refreshRejected ch xff = false →
        refresh fernet parseDoc st ch xff resp =
          match load_from_s3 fernet parseDoc st resp with
          | (st2, .ok n) => (.http200 n, st2)
          | (st2, .error e) => (.http500 e, st2))
      ∧ (refreshRejected ch xff = true ↔
          (ch ≠ some "127.0.0.1" ∧ ch ≠ some "localhost" ∧ ch ≠ none)
          ∧ (firstForwarded xff ≠ "127.0.0.1" ∧ firstForwarded xff ≠ "localhost"
             ∧ firstForwarded xff ≠ "")) := by
  intro fern pd st ch xff resp
  refine ⟨fun h => by simp [refresh, h], fun h => by simp [refresh, h], ?_⟩
  simp [refreshRejected, isAllowedHost, isAllowedForwarded, not_or]

/-- C2 witness: a request that is non-local on both the direct and the
forwarded address is rejected with the store untouched. -/
theorem C2_witness :
    refresh none pdEmpty stOld (some "10.9.8.7") (some "203.0.113.5") .noSuchKey
      = (.http403, stOld) :=
  (C2_amended_refresh_gate none pdEmpty stOld (some "10.9.8.7") (some "203.0.113.5")
    .noSuchKey).1 (by decide)

/-- C3 counterexample: a reload whose single record carries a secret but no
id raises the KeyError after the secret index has already been replaced, so
the store does not keep both indices at their prior values as the claim
requires — the error propagates but the secret index now holds the new
record while the id index still holds the old one. -/
theorem C3_counterexample :
    load_from_s3 none pdNoId stOld (.ok [])
      = (⟨[("sec_new", recNoId)], [("key_old", recOld)]⟩, .error (.keyError "id"))
    ∧ [("sec_new", recNoId)] ≠ stOld.keys_by_secret
    ∧ stOld.keys_by_id = [("key_old", recOld)] := by
  refine ⟨rfl, by decide, by decide⟩

/-- C3 amended: a failed load propagates its error and leaves both indices
exactly as they were for transport errors, decryption failures, parse
failures, and a record missing its secret field; but when every record has
a secret and some record lacks an id, the failure strikes between the two
index assignments: the secret index is already replaced by the new mapping
and only the id index keeps its previous value. -/
theorem C3_amended_failed_load_state :
    ∀ (fernet : Option Nat) (parseDoc : Bytes → Except LoadErr (List RawRecord))
      (st : StoreState) (raw dec : Bytes) (c m : String) (e : LoadErr)
      (ks : List RawRecord) (bySec : List (String × RawRecord)),
      (load_from_s3 fernet parseDoc st (.err c) = (st, .error (.clientError c)))
      ∧ (decrypt_data fernet raw = .error m →
          load_from_s3 fernet parseDoc st (.ok raw) = (st, .error (.valueError m)))
      ∧ (decrypt_data fernet raw = .ok dec → parseDoc dec = .error e →
          load_from_s3 fernet parseDoc st (.ok raw) = (st, .error e))
      ∧ (decrypt_data fernet raw = .ok dec → parseDoc dec = .ok ks →
          buildIndex RawRecord.secretField "secret" ks [] = .error e →
          load_from_s3 fernet parseDoc st (.ok raw) = (st, .error e))
      ∧ (decrypt_data fernet raw = .ok dec → parseDoc dec = .ok ks →
          buildIndex RawRecord.secretField "secret" ks [] = .ok bySec →
          buildIndex RawRecord.idField "id" ks [] = .error e →
          load_from_s3 fernet parseDoc st (.ok raw)
            = (⟨bySec, st.keys_by_id⟩, .error e)) := by
  intro fern pd st raw dec c m e ks bySec
  refine ⟨rfl, ?_, ?_, ?_, ?_⟩
  · intro h1
    simp [load_from_s3, h1]
  · intro h1 h2
    simp [load_from_s3, h1, h2]
  · intro h1 h2 h3
    simp [load_from_s3, h1, h2, h3]
  · intro h1 h2 h3 h4
    simp [load_from_s3, h1, h2, h3, h4]

/-- C3 witness: the preserved decryption-failure case and the mixed-state
missing-id case evaluated on concrete stores. -/
theorem C3_witness :
    load_from_s3 none pdEmpty stOld (.ok ENCRYPTION_HEADER)
      = (stOld, .error (.valueError "Data is encrypted but no STORAGE_SECRET provided"))
    ∧ load_from_s3 none pdNoId stOld (.ok [])
      = (⟨[("sec_new", recNoId)], stOld.keys_by_id⟩, .error (.keyError "id")) :=
  ⟨(C3_amended_failed_load_state none pdEmpty stOld ENCRYPTION_HEADER [] "c"
      "Data is encrypted but no STORAGE_SECRET provided" .jsonDecodeError [] []).2.1
      rfl,
   (C3_amended_failed_load_state none pdNoId stOld [] [] "c" "m" (.keyError "id")
      [recNoId] [("sec_new", recNoId)]).2.2.2.2 rfl rfl rfl rfl⟩

/-- C8 counterexample: during a concrete successful reload the sequence of
store states visible at the statement boundaries of load contains an
intermediate state whose secret index already holds the new record list
while its id index still holds the previous one — the interleaving point
the claim says does not exist. -/
theorem C8_counterexample :
    loadTrace none pdB stOld (.ok [])
      = [stOld,
         ⟨[("sec_b", recB)], [("key_old", recOld)]⟩,
         ⟨[("sec_b", recB)], [("key_b", recB)]⟩]
    ∧ [("sec_b", recB)] ≠ stOld.keys_by_secret
    ∧ [("key_old", recOld)] = stOld.keys_by_id
    ∧ (load_from_s3 none pdB stOld (.ok [])).1
        = ⟨[("sec_b", recB)], [("key_b", recB)]⟩ := by
  refine ⟨by decide, by decide, by decide, by decide⟩

/-- C8 amended: the reload publishes the two indices in two sequential
assignments, not one atomic switch: the state trace of load starts at the
old snapshot and ends at the final one, every intermediate state keeps the
old id index, and on every load that returns a count the trace contains the
mixed state pairing the new secret index with the old id index; the
converse mix (new id index with old secret index) never occurs.  Whether a
concurrent lookup can observe the mixed point is a property of the runtime
scheduler, outside this embedding. -/
theorem C8_amended_two_step_publish :
    ∀ (fernet : Option Nat) (parseDoc : Bytes → Except LoadErr (List RawRecord))
      (st : StoreState) (resp : S3GetResult),
      ((loadTrace fernet parseDoc st resp).head? = some st)
      ∧ ((loadTrace fernet parseDoc st resp).getLast?
          = some (load_from_s3 fernet parseDoc st resp).1)
      ∧ (∀ mid ∈ loadTrace fernet parseDoc st resp,
          mid.keys_by_id = st.keys_by_id ∨ mid = (load_from_s3 fernet parseDoc st resp).1)
      ∧ (∀ st2 n, load_from_s3 fernet parseDoc st resp = (st2, .ok n) →
          (⟨st2.keys_by_secret, st.keys_by_id⟩ : StoreState)
            ∈ loadTrace fernet parseDoc st resp) := by
  intro fern pd st resp
  cases resp with
  | noSuchKey =>
    refine ⟨rfl, rfl, ?_, ?_⟩
    · intro mid hmid
      simp only [loadTrace, List.mem_cons, List.not_mem_nil, or_false] at hmid
      rcases hmid with h | h | h <;> subst h
      · exact Or.inl rfl
      · exact Or.inl rfl
      · exact Or.inr rfl
    · intro st2 n h
      simp only [load_from_s3] at h
      injection h with h1 h2
      subst h1
      simp [loadTrace]
  | err c =>
    refine ⟨rfl, rfl, ?_, ?_⟩
    · intro mid hmid
      simp only [loadTrace, List.mem_cons, List.not_mem_nil, or_false] at hmid
      subst hmid
      exact Or.inl rfl
    · intro st2 n h
      simp [load_from_s3] at h
  | ok raw =>
    cases hdec : decrypt_data fern raw with
    | error m =>
      refine ⟨by simp [loadTrace, hdec], by simp [loadTrace, load_from_s3, hdec], ?_, ?_⟩
      · intro mid hmid
        simp only [loadTrace, hdec, List.mem_cons, List.not_mem_nil, or_false] at hmid
        subst hmid
        exact Or.inl rfl
      · intro st2 n h
        simp [load_from_s3, hdec] at h
    | ok dec =>
      cases hpd : pd dec with
      | error e =>
        refine ⟨by simp [loadTrace, hdec, hpd], by simp [loadTrace, load_from_s3, hdec, hpd],
          ?_, ?_⟩
        · intro mid hmid
          simp only [loadTrace, hdec, hpd, List.mem_cons, List.not_mem_nil, or_false] at hmid
          subst hmid
          exact Or.inl rfl
        · intro st2 n h
          simp [load_from_s3, hdec, hpd] at h
      | ok ks =>
        cases hsec : buildIndex RawRecord.secretField "secret" ks [] with
        | error e =>
          refine ⟨by simp [loadTrace, hdec, hpd, hsec],
            by simp [loadTrace, load_from_s3, hdec, hpd, hsec], ?_, ?_⟩
          · intro mid hmid
            simp only [loadTrace, hdec, hpd, hsec, List.mem_cons, List.not_mem_nil,
              or_false] at hmid
            subst hmid
            exact Or.inl rfl
          · intro st2 n h
            simp [load_from_s3, hdec, hpd, hsec] at h
        | ok bySec =>
          cases hid : buildIndex RawRecord.idField "id" ks [] with
          | error e =>
            refine ⟨by simp [loadTrace, hdec, hpd, hsec, hid],
              by simp [loadTrace, load_from_s3, hdec, hpd, hsec, hid], ?_, ?_⟩
            · intro mid hmid
              simp only [loadTrace, hdec, hpd, hsec, hid, List.mem_cons, List.not_mem_nil,
                or_false] at hmid
              rcases hmid with h | h <;> subst h
              · exact Or.inl rfl
              · exact Or.inl rfl
            · intro st2 n h
              simp [load_from_s3, hdec, hpd, hsec, hid] at h
          | ok byId =>
            refine ⟨by simp [loadTrace, hdec, hpd, hsec, hid],
              by simp [loadTrace, load_from_s3, hdec, hpd, hsec, hid], ?_, ?_⟩
            · intro mid hmid
              simp only [loadTrace, hdec, hpd, hsec, hid, List.mem_cons, List.not_mem_nil,
                or_false] at hmid
              rcases hmid with h | h | h <;> subst h
              · exact Or.inl rfl
              · exact Or.inl rfl
              · exact Or.inr (by simp [load_from_s3, hdec, hpd, hsec, hid])
            · intro st2 n h
              simp only [load_from_s3, hdec, hpd, hsec, hid] at h
              injection h with h1 h2
              subst h1
              simp [loadTrace, hdec, hpd, hsec, hid]

/-- C8 witness: the head, last and mixed-state conclusions evaluated on a
concrete successful reload. -/
theorem C8_witness :
    (⟨[("sec_b", recB)], stOld.keys_by_id⟩ : StoreState)
      ∈ loadTrace none pdB stOld (.ok []) :=
  (C8_amended_two_step_publish none pdB stOld (.ok [])).2.2.2
    ⟨[("sec_b", recB)], [("key_b", recB)]⟩ 1 rfl

/-- C10 counterexample: a blob with two records that share an id but have
distinct secrets loads without error, yet the count returned is the number
of distinct secrets, 2, which equals the number of records rather than
being strictly less as the claim asserts for any duplicate id or secret. -/
theorem C10_counterexample :
    load_from_s3 none pdCD ⟨[], []⟩ (.ok [])
      = (⟨[("sec_c", recC), ("sec_d", recD)], [("key_dup", recD)]⟩, .ok 2)
    ∧ recC.idField = recD.idField
    ∧ recC ≠ recD
    ∧ [recC, recD].length = 2 := by
  refine ⟨rfl, by decide, by decide, by decide⟩

/-- C10 amended: duplicate secrets or ids in the loaded list cause no
error; in each index the record occurring later in list order silently
overwrites the earlier one (the stored value for a key is the last record
carrying it); load returns the number of distinct secrets, which is
strictly less than the number of records when some secret is duplicated —
but equals the record count when only ids are duplicated. -/
theorem C10_amended_duplicates :
    ∀ (fernet : Option Nat) (parseDoc : Bytes → Except LoadErr (List RawRecord))
      (st : StoreState) (raw dec : Bytes) (ks : List RawRecord),
      decrypt_data fernet raw = .ok dec →
      parseDoc dec = .ok ks →
      (∀ r ∈ ks, (r.secretField).isSome) →
      (∀ r ∈ ks, (r.idField).isSome) →
      ∃ bySec byId,
        load_from_s3 fernet parseDoc st (.ok raw) = (⟨bySec, byId⟩, .ok bySec.length)
        ∧ (∀ s, List.lookup s bySec
            = (ks.filter (fun r => decide (r.secretField = some s))).getLast?)
        ∧ (∀ i, List.lookup i byId
            = (ks.filter (fun r => decide (r.idField = some i))).getLast?)
        ∧ bySec.length = ((ks.filterMap RawRecord.secretField).toFinset).card
        ∧ (¬(ks.filterMap RawRecord.secretField).Nodup → bySec.length < ks.length) := by
  intro fern pd st raw dec ks hdec hpd hsall hiall
  obtain ⟨bySec, hSec⟩ := buildIndex_ok RawRecord.secretField "secret" ks [] hsall
  obtain ⟨byId, hId⟩ := buildIndex_ok RawRecord.idField "id" ks [] hiall
  refine ⟨bySec, byId, by simp [load_from_s3, hdec, hpd, hSec, hId], ?_, ?_, ?_, ?_⟩
  · intro s
    have h := buildIndex_lookup RawRecord.secretField "secret" ks [] bySec hSec s
    cases hfl : (ks.filter (fun r => decide (r.secretField = some s))).getLast? with
    | none => rw [hfl] at h; simpa using h
    | some r => rw [hfl] at h; simpa using h
  · intro i
    have h := buildIndex_lookup RawRecord.idField "id" ks [] byId hId i
    cases hfl : (ks.filter (fun r => decide (r.idField = some i))).getLast? with
    | none => rw [hfl] at h; simpa using h
    | some r => rw [hfl] at h; simpa using h
  · exact buildIndex_length RawRecord.secretField "secret" ks bySec hSec
  · intro hdup
    rw [buildIndex_length RawRecord.secretField "secret" ks bySec hSec,
      ← filterMap_length_of_all_some RawRecord.secretField ks hsall]
    exact toFinset_card_lt_of_dup _ hdup

/-- C10 witness: two records sharing a secret load without error, the later
overwrites the earlier, and the returned count 1 is strictly below the
record count 2. -/
theorem C10_witness :
    ∃ bySec byId,
      load_from_s3 none pdEF ⟨[], []⟩ (.ok []) = (⟨bySec, byId⟩, .ok bySec.length)
      ∧ (∀ s, List.lookup s bySec
          = ([recE, recF].filter (fun r => decide (r.secretField = some s))).getLast?)
      ∧ (∀ i, List.lookup i byId
          = ([recE, recF].filter (fun r => decide (r.idField = some i))).getLast?)
      ∧ bySec.length = (([recE, recF].filterMap RawRecord.secretField).toFinset).card
      ∧ (¬([recE, recF].filterMap RawRecord.secretField).Nodup →
          bySec.length < [recE, recF].length) :=
  C10_amended_duplicates none pdEF ⟨[], []⟩ [] [] [recE, recF] rfl rfl
    (by decide) (by decide)

end HeareAuth
